import Mathlib

/-
Verification of the CHARON terminal core (mothership repository).

Shallow embedding of:
  - terminal/charon_session.py  (CharonSessionManager, CharonMessage)
  - terminal/charon_knowledge.py (CharonKnowledgeLoader._extract_sections,
      _load_location_chain)
  - terminal/charon_ai.py       (CharonAI.generate_response,
      _get_fallback_response)

Modelling conventions:
  - The Django cache is modelled as explicit state (structure Store): each
    cache key family becomes one field keyed by channel name.  A cache miss
    returns the documented default, exactly as cache.get(key, default).
    TTL expiry is not modelled (all reads are assumed within the TTL).
  - uuid.uuid4() and datetime.now().isoformat() are nondeterministic
    inputs; they are modelled by counters threaded through the Store
    (uuidSeed, clock), producing distinct opaque strings.
  - Python truthiness on optional strings (if x:) is modelled explicitly:
    none and the empty string are falsy.
  - Exceptions are modelled with Option/Except result types.
-/

namespace Mothership

/-! ### Data model (charon_session.py) -/

/-- Embeds class CharonMessage (charon_session.py): a single conversation
message, as stored in the per-channel conversation list. -/
structure CharonMessage where
  message_id : String
  role : String
  content : String
  timestamp : String
  pending_approval : Bool
deriving DecidableEq, Repr, Inhabited

/-- Embeds the pending-queue entry dict built in add_pending_response. -/
structure PendingResponse where
  pending_id : String
  query_id : String
  query : String
  response : String
  timestamp : String
deriving DecidableEq, Repr, Inhabited

/-- Embeds the last-read marker dict stored by mark_channel_read. -/
structure ReadMarker where
  message_id : String
  timestamp : String
  user_id : Option Int
deriving DecidableEq, Repr, Inhabited

/-- The Django cache state visible to CharonSessionManager, plus counters
supplying fresh uuid strings and timestamps. conversations, pending and
lastRead model the cache keys charon_{channel}_conversation,
charon_{channel}_pending and charon_{channel}_last_read; activeChannels
models charon_active_channels (none = key absent). -/
structure Store where
  conversations : String → List CharonMessage
  pending : String → List PendingResponse
  activeChannels : Option (List String)
  lastRead : String → Option ReadMarker
  uuidSeed : Nat
  clock : Nat

/-- A cache with no keys set. -/
def emptyStore : Store :=
  { conversations := fun _ => []
    pending := fun _ => []
    activeChannels := none
    lastRead := fun _ => none
    uuidSeed := 0
    clock := 0 }

/-- Models str(uuid.uuid4()): returns a fresh opaque string and advances
the supply. -/
def freshUuid (s : Store) : String × Store :=
  ("uuid-" ++ toString s.uuidSeed, { s with uuidSeed := s.uuidSeed + 1 })

/-- Models datetime.now().isoformat(). -/
def freshNow (s : Store) : String × Store :=
  ("t-" ++ toString s.clock, { s with clock := s.clock + 1 })

/-- Embeds CharonMessage.__init__: message_id or str(uuid.uuid4());
timestamp or datetime.now().isoformat().  The Python `or` treats the
empty string like None, so an empty argument also triggers generation. -/
def mkCharonMessage (role content : String) (timestamp message_id : Option String)
    (pending_approval : Bool) (s : Store) : CharonMessage × Store :=
  let step1 : String × Store :=
    match message_id with
    | some v => if v = "" then freshUuid s else (v, s)
    | none => freshUuid s
  let step2 : String × Store :=
    match timestamp with
    | some v => if v = "" then freshNow step1.2 else (v, step1.2)
    | none => freshNow step1.2
  ({ message_id := step1.1, role := role, content := content, timestamp := step2.1,
     pending_approval := pending_approval }, step2.2)

/-- Pointwise update of the conversation key of one channel
(cache.set of charon_{channel}_conversation). -/
def setConversation (channel : String) (conv : List CharonMessage) (s : Store) : Store :=
  { s with conversations := fun c => if c = channel then conv else s.conversations c }

/-- Pointwise update of the pending key of one channel. -/
def setPending (channel : String) (p : List PendingResponse) (s : Store) : Store :=
  { s with pending := fun c => if c = channel then p else s.pending c }

/-- Pointwise update of the last-read key of one channel. -/
def setLastRead (channel : String) (m : Option ReadMarker) (s : Store) : Store :=
  { s with lastRead := fun c => if c = channel then m else s.lastRead c }

/-! ### CharonSessionManager operations (charon_session.py) -/

/-- Embeds CharonSessionManager.get_conversation. -/
def get_conversation (channel : String) (s : Store) : List CharonMessage :=
  s.conversations channel

/-- Embeds CharonSessionManager.register_channel. -/
def register_channel (channel : String) (s : Store) : Store :=
  let channels := s.activeChannels.getD ["default", "bridge"]
  if channel ∈ channels then s
  else { s with activeChannels := some (channels ++ [channel]) }

/-- Embeds CharonSessionManager.add_message: append to the conversation,
then auto-register the channel. -/
def add_message (message : CharonMessage) (channel : String) (s : Store) : Store :=
  let conversation := get_conversation channel s
  let s1 := setConversation channel (conversation ++ [message]) s
  register_channel channel s1

/-- Embeds CharonSessionManager.get_pending_responses. -/
def get_pending_responses (channel : String) (s : Store) : List PendingResponse :=
  s.pending channel

/-- Embeds CharonSessionManager.add_pending_response: builds the entry
dict with a fresh pending_id and timestamp and appends it to the
channel pending queue.  Returns the pending_id. -/
def add_pending_response (query response query_id : String) (channel : String)
    (s : Store) : String × Store :=
  let pending := get_pending_responses channel s
  let pending_id := (freshUuid s).1
  let s1 := (freshUuid s).2
  let ts := (freshNow s1).1
  let s2 := (freshNow s1).2
  let entry : PendingResponse :=
    { pending_id := pending_id, query_id := query_id, query := query,
      response := response, timestamp := ts }
  (pending_id, setPending channel (pending ++ [entry]) s2)

/-- Embeds CharonSessionManager.get_pending_by_id (linear search). -/
def get_pending_by_id (pending_id : String) (channel : String) (s : Store) :
    Option PendingResponse :=
  (get_pending_responses channel s).find? (fun item => item.pending_id == pending_id)

/-- Embeds CharonSessionManager.approve_response: on the first queue entry
with the given id, build a charon CharonMessage from modified_content if
not None else the stored response, add it via add_message, remove the
entry (list.remove: first equal element) and rewrite the pending key from
the list read at entry; otherwise return False. -/
def approve_response (pending_id : String) (modified_content : Option String)
    (channel : String) (s : Store) : Bool × Store :=
  let pending := get_pending_responses channel s
  match pending.find? (fun item => item.pending_id == pending_id) with
  | some item =>
    let content := modified_content.getD item.response
    let made := mkCharonMessage "charon" content none none false s
    let s2 := add_message made.1 channel made.2
    (true, setPending channel (pending.erase item) s2)
  | none => (false, s)

/-- Embeds CharonSessionManager.reject_response: remove the first queue
entry with the given id; nothing is appended to the conversation. -/
def reject_response (pending_id : String) (channel : String) (s : Store) :
    Bool × Store :=
  let pending := get_pending_responses channel s
  match pending.find? (fun item => item.pending_id == pending_id) with
  | some item => (true, setPending channel (pending.erase item) s)
  | none => (false, s)

/-- Embeds CharonSessionManager.clear_conversation: cache.delete of the
conversation and pending keys (a deleted key reads back as the default
empty list). -/
def clear_conversation (channel : String) (s : Store) : Store :=
  setPending channel [] (setConversation channel [] s)

/-- Embeds CharonSessionManager.get_message_count. -/
def get_message_count (channel : String) (s : Store) : Nat :=
  (get_conversation channel s).length

/-- Embeds CharonSessionManager.get_pending_count. -/
def get_pending_count (channel : String) (s : Store) : Nat :=
  (get_pending_responses channel s).length

/-- Embeds CharonSessionManager.get_all_channels. -/
def get_all_channels (s : Store) : List String :=
  s.activeChannels.getD ["default", "bridge"]

/-- Inhabitant used to translate the Python index accesses
conversation[i] / conversation[i+1], which in context are always
in bounds. -/
def defaultMsg : CharonMessage := default

/-- Embeds the else-branch loop of get_unread_count: for each index i,
count msg when its role is user and the next message either does not
exist or is not a charon response. -/
def unreadLoop (conversation : List CharonMessage) : Nat :=
  (List.range conversation.length).foldl
    (fun unread i =>
      if (conversation.getD i defaultMsg).role == "user" &&
         (decide (conversation.length ≤ i + 1) ||
          (conversation.getD (i + 1) defaultMsg).role != "charon")
      then unread + 1 else unread)
    0

/-- Embeds CharonSessionManager.get_unread_count.  The Python guard
`if last_read_message_id:` is truthiness: None and the empty string both
select the unanswered-user heuristic branch. -/
def get_unread_count (channel : String) (last_read_message_id : Option String)
    (s : Store) : Nat :=
  let conversation := get_conversation channel s
  if conversation.isEmpty then 0
  else if last_read_message_id.getD "" = "" then
    unreadLoop conversation
  else
    match conversation.findIdx?
        (fun msg => msg.message_id == last_read_message_id.getD "") with
    | some i => conversation.length - (i + 1)
    | none => 0

/-- Embeds CharonSessionManager.mark_channel_read: store a marker at the
last message of a nonempty conversation; no-op when empty. -/
def mark_channel_read (channel : String) (gm_user_id : Option Int) (s : Store) : Store :=
  let conversation := get_conversation channel s
  match conversation.getLast? with
  | some last =>
    setLastRead channel
      (some { message_id := last.message_id, timestamp := (freshNow s).1,
              user_id := gm_user_id }) (freshNow s).2
  | none => s

/-- Embeds CharonSessionManager.get_last_read. -/
def get_last_read (channel : String) (s : Store) : Option ReadMarker :=
  s.lastRead channel

/-! ### String helpers over List Char (kernel-computable counterparts of
the Python string operations used by charon_knowledge.py) -/

/-- Character-list counterpart of str.lower (ASCII, which covers all
headings and patterns in the repository data). -/
def lowerChars (cs : List Char) : List Char :=
  cs.map Char.toLower

/-- Character-list counterpart of str.strip (default whitespace). -/
def trimChars (cs : List Char) : List Char :=
  ((cs.dropWhile Char.isWhitespace).reverse.dropWhile Char.isWhitespace).reverse

/-- Does the second list start with the first (str.startswith)? -/
def isStart : List Char → List Char → Bool
  | [], _ => true
  | _ :: _, [] => false
  | a :: as, b :: bs => a == b && isStart as bs

/-- Does the second list contain the first as a contiguous run
(the Python `in` operator on strings)? -/
def hasSub (needle : List Char) : List Char → Bool
  | [] => needle.isEmpty
  | c :: rest => isStart needle (c :: rest) || hasSub needle rest

/-- Splits a character list at newline characters, like str.split of a
single-character separator: the empty input yields one empty line. -/
def splitOnNl (cs : List Char) : List (List Char) :=
  cs.foldr
    (fun c acc =>
      match acc with
      | l :: ls => if c = '\n' then [] :: l :: ls else (c :: l) :: ls
      | [] => [[c]])
    [[]]

/-- Joins lines with newline characters, like a str.join on a newline. -/
def joinNl (lines : List String) : String :=
  String.mk (List.intercalate ['\n'] (lines.map String.data))

/-! ### CharonKnowledgeLoader._extract_sections (charon_knowledge.py) -/

/-- Embeds the regex r-caret-(#-1-6)-ws-(rest) header test of
_extract_sections: a line is a heading when it starts with one to six
hash marks followed by at least one whitespace character and at least one
further character; the returned section name is the remainder stripped of
surrounding whitespace (group(2).strip(), where the greedy whitespace run
backtracks to keep group(2) nonempty). -/
def headerMatch (line : String) : Option (Nat × String) :=
  let cs := line.data
  let n := (cs.takeWhile (fun c => c == '#')).length
  let rest := cs.drop n
  if 1 ≤ n ∧ n ≤ 6 then
    match rest with
    | c :: _ :: _ =>
      if c.isWhitespace then some (n, String.mk (trimChars rest)) else none
    | _ => none
  else none

/-- Embeds the deny test of _extract_sections: re.match(pattern,
section_name, IGNORECASE) for the repository deny patterns, which are all
of the shape caret-literal.  re.match anchors at the start, so the test
is a case-insensitive literal head match; patterns are held here without
the caret. -/
def sectionExcluded (exclude_patterns : List String) (section_name : String) : Bool :=
  exclude_patterns.any
    (fun pat => isStart (lowerChars pat.data) (lowerChars section_name.data))

/-- The default exclude_patterns list of _load_obsidian_lore, caret
anchors dropped (see sectionExcluded). -/
def defaultExcludePatterns : List String :=
  ["GM Notes", "Secrets", "Session", "Adventure Hooks", "Campaign"]

/-- Embeds the allow test of _extract_sections: case-insensitive
startswith or substring containment against the allow-list. -/
def sectionAllowed (allowed_sections : List String) (section_name : String) : Bool :=
  allowed_sections.any
    (fun allowed =>
      isStart (lowerChars allowed.data) (lowerChars section_name.data) ||
      hasSub (lowerChars allowed.data) (lowerChars section_name.data))

/-- The loop state of _extract_sections (current_level,
in_allowed_section). -/
structure ExtractState where
  current_level : Nat
  in_allowed_section : Bool
deriving DecidableEq, Repr

/-- Embeds one iteration of the _extract_sections loop: classify a
heading against the deny patterns first (dropping the line and leaving
any allowed section), then against the allow-list (entering an allowed
section at this level), else keep heading lines of deeper subsections of
an allowed section; non-heading lines are kept iff inside an allowed
section.  Returns the new state and the lines emitted (zero or one). -/
def extractLine (allowed_sections exclude_patterns : List String)
    (st : ExtractState) (line : String) : ExtractState × List String :=
  match headerMatch line with
  | some (level, section_name) =>
    if sectionExcluded exclude_patterns section_name then
      ({ st with in_allowed_section := false }, [])
    else if sectionAllowed allowed_sections section_name then
      ({ current_level := level, in_allowed_section := true }, [line])
    else if st.in_allowed_section then
      if st.current_level < level then (st, [line])
      else ({ st with in_allowed_section := false }, [])
    else (st, [])
  | none =>
    if st.in_allowed_section then (st, [line]) else (st, [])

/-- The _extract_sections loop over all lines, threading the state and
accumulating the result list. -/
def extractFold (allowed_sections exclude_patterns : List String)
    (lines : List String) : List String :=
  (lines.foldl
    (fun acc line =>
      let step := extractLine allowed_sections exclude_patterns acc.1 line
      (step.1, acc.2 ++ step.2))
    (({ current_level := 0, in_allowed_section := false } : ExtractState), [])).2

/-- Embeds CharonKnowledgeLoader._extract_sections: split on newlines,
run the section filter, join the kept lines with newlines. -/
def _extract_sections (content : String) (allowed_sections exclude_patterns : List String) :
    String :=
  joinNl (extractFold allowed_sections exclude_patterns
    ((splitOnNl content.data).map String.mk))

/-! ### CharonKnowledgeLoader._load_location_chain (charon_knowledge.py) -/

/-- Embeds CharonKnowledgeLoader._load_location_chain over an abstract
location-record provider (the _load_location_yaml file read, returning
none when the location.yaml file is absent).  The path is given as its
list of parts (Path(...).parts); for i from 1 to the number of parts the
incremental prefix path is joined with slashes, looked up, and, when the
record exists, emitted tagged with that prefix path (the record dict is
the first component, the _path tag the second). -/
def _load_location_chain {α : Type} (provider : String → Option α)
    (parts : List String) : List (α × String) :=
  (List.range parts.length).filterMap
    (fun i =>
      let pfx := String.intercalate "/" (parts.take (i + 1))
      (provider pfx).map (fun d => (d, pfx)))

/-- The slash-joined incremental path prefixes of a parts list, root to
leaf, used to phrase the _load_location_chain contract. -/
def chainPaths (parts : List String) : List String :=
  (List.range parts.length).map
    (fun i => String.intercalate "/" (parts.take (i + 1)))

/-! ### CharonAI (charon_ai.py) -/

/-- Embeds the CHARON YAML config dict as read by CharonAI: each field a
dict.get with the documented default; only the keys generate_response and
_get_fallback_response read are modelled. -/
structure CharonConfig where
  system_prompt : Option String
  max_response_length : Option Nat
  fallback_responses : Option (List String)
deriving DecidableEq, Repr

/-- The fallback_responses default used by _load_config and by the
dict.get calls in _get_fallback_response. -/
def defaultFallbacks : List String :=
  ["[SYSTEM ERROR] Unable to process query at this time."]

/-- The effective fallback list: the configured one, else the default. -/
def effFallbacks (cfg : CharonConfig) : List String :=
  cfg.fallback_responses.getD defaultFallbacks

/-- Embeds CharonAI._get_fallback_response: random.choice over the
effective fallback list; the random index is threaded in as pick.
random.choice raises IndexError on an empty sequence, which the Option
none models (list.get? of the reduced index is none exactly then). -/
def _get_fallback_response (cfg : CharonConfig) (pick : Nat) : Option String :=
  let fallbacks := effFallbacks cfg
  fallbacks.get? (pick % fallbacks.length)

/-- One entry of the messages list sent to the model (role, content);
also the shape of the conversation-history dicts read from the store. -/
structure ApiMsg where
  role : String
  content : String
deriving DecidableEq, Repr

/-- Embeds the message assembly in generate_response: the last 10
history entries with role charon mapped to assistant and every other
role to user, then the current query as a final user turn. -/
def buildMessages (history : List ApiMsg) (query : String) : List ApiMsg :=
  (history.drop (history.length - 10)).map
    (fun m =>
      { role := if m.role == "charon" then "assistant" else "user",
        content := m.content })
  ++ [{ role := "user", content := query }]

/-- Embeds CharonAI.generate_response.  The client field is none when
client construction failed (no credential, missing library, constructor
error); a present client is the model call itself, an oracle from the
assembled messages to either a reply text or an exception.  The entire
try body funnels any exception into _get_fallback_response. -/
def generate_response (cfg : CharonConfig)
    (client : Option (List ApiMsg → Except String String)) (pick : Nat)
    (query : String) (history : List ApiMsg) : Option String :=
  match client with
  | none => _get_fallback_response cfg pick
  | some call =>
    match call (buildMessages history query) with
    | Except.ok text => some text
    | Except.error _ => _get_fallback_response cfg pick

/-! ### Claim-side auxiliary definitions (phrasings taken from the spec
sentences, used to state the theorems against the embedded code) -/

/-- Number of messages strictly after the first occurrence of the given
message id; zero when the id does not occur (spec phrasing for the
marker branch of getUnreadCount). -/
def msgsAfterId (id : String) : List CharonMessage → Nat
  | [] => 0
  | m :: rest => if m.message_id = id then rest.length else msgsAfterId id rest

/-- Shape of the marker branch of get_unread_count: messages after a
found index, else zero (used to relate the findIdx arithmetic to
msgsAfterId). -/
def markerCount (n : Nat) (r : Option Nat) : Nat :=
  match r with
  | some i => n - (i + 1)
  | none => 0

/-- Number of user-role messages not immediately followed by a
charon-role message (spec phrasing for the heuristic branch of
getUnreadCount). -/
def unansweredCount : List CharonMessage → Nat
  | [] => 0
  | [m] => if m.role = "user" then 1 else 0
  | m :: next :: rest =>
    (if m.role = "user" ∧ next.role ≠ "charon" then 1 else 0) +
      unansweredCount (next :: rest)

/-- Folding add_message over a list of messages on one channel (a finite
sequence of addMessage calls). -/
def addAll (msgs : List CharonMessage) (channel : String) (s : Store) : Store :=
  msgs.foldl (fun st m => add_message m channel st) s

/-- Folding add_pending_response over a list of
(query, response, query_id) triples on one channel. -/
def addPendingAll (calls : List (String × String × String)) (channel : String)
    (s : Store) : Store :=
  calls.foldl (fun st c => (add_pending_response c.1 c.2.1 c.2.2 channel st).2) s

/-- markRead followed by clear on the same channel (the scenario of the
read-marker frame property). -/
def markThenClear (channel : String) (uid : Option Int) (s : Store) : Store :=
  clear_conversation channel (mark_channel_read channel uid s)

/-! ### Concrete sample data for evaluating the theorems -/

/-- A sample pending entry. -/
def demoEntry : PendingResponse :=
  { pending_id := "p1", query_id := "q1", query := "status?",
    response := "ALL SYSTEMS NOMINAL", timestamp := "t-0" }

/-- A store whose bridge channel has one pending entry. -/
def demoPendingStore : Store := setPending "bridge" [demoEntry] emptyStore

/-- The conversation of the unread-count example:
user a, charon b, user c. -/
def demoConv : List CharonMessage :=
  [ { message_id := "ida", role := "user", content := "a", timestamp := "t-1",
      pending_approval := false },
    { message_id := "idb", role := "charon", content := "b", timestamp := "t-2",
      pending_approval := false },
    { message_id := "idc", role := "user", content := "c", timestamp := "t-3",
      pending_approval := false } ]

/-- A store whose story channel holds demoConv. -/
def demoConvStore : Store := setConversation "story" demoConv emptyStore

/-- The lore-filtering example document with headings Overview, GM Notes
and History. -/
def demoLoreDoc : String :=
  "# Overview\nStation overview body.\n# GM Notes\nSecret plans.\n# History\nOld battles."

/-- A location-record provider defined on the three prefixes of
sol/earth/base-alpha. -/
def demoProvider : String → Option Nat :=
  fun p =>
    if p = "sol" then some 0
    else if p = "sol/earth" then some 1
    else if p = "sol/earth/base-alpha" then some 2
    else none

/-- The config of an instance whose context.yaml is absent (every
dict.get falls back to its default). -/
def demoConfig : CharonConfig :=
  { system_prompt := none, max_response_length := none, fallback_responses := none }

/-! ### Helper lemmas -/

theorem find?_of_filter_singleton {α : Type} (p : α → Bool) (l : List α) (a : α)
    (h : l.filter p = [a]) : l.find? p = some a := by
  induction l with
  | nil => simp at h
  | cons x xs ih =>
    by_cases hx : p x
    · rw [List.filter_cons_of_pos hx] at h
      obtain ⟨rfl, -⟩ := List.cons_eq_cons.mp h
      exact List.find?_cons_of_pos _ hx
    · rw [List.filter_cons_of_neg hx] at h
      rw [List.find?_cons_of_neg _ hx]
      exact ih h

theorem filter_erase_of_filter_singleton {α : Type} [DecidableEq α]
    (p : α → Bool) (l : List α) (a : α) (h : l.filter p = [a]) :
    (l.erase a).filter p = [] := by
  induction l with
  | nil => simp
  | cons x xs ih =>
    by_cases hx : p x
    · rw [List.filter_cons_of_pos hx] at h
      obtain ⟨rfl, h2⟩ := List.cons_eq_cons.mp h
      rw [List.erase_cons_head]
      exact h2
    · rw [List.filter_cons_of_neg hx] at h
      have hax : ¬(x == a) := by
        intro heq
        have hxa : x = a := by simpa using heq
        subst hxa
        have hmem : x ∈ xs.filter p := by rw [h]; exact List.mem_singleton.mpr rfl
        exact hx (List.of_mem_filter hmem)
      rw [List.erase_cons_tail (by simpa using hax)]
      rw [List.filter_cons_of_neg hx]
      exact ih h

theorem find?_erase_of_filter_singleton {α : Type} [DecidableEq α]
    (p : α → Bool) (l : List α) (a : α) (h : l.filter p = [a]) :
    (l.erase a).find? p = none := by
  rw [List.find?_eq_none]
  intro x hx
  have := List.filter_eq_nil_iff.mp (filter_erase_of_filter_singleton p l a h)
  exact this x hx

theorem register_channel_conversations (channel : String) (s : Store) :
    (register_channel channel s).conversations = s.conversations := by
  by_cases h : channel ∈ s.activeChannels.getD ["default", "bridge"]
  · simp [register_channel, h]
  · simp [register_channel, h]

theorem register_channel_pending (channel : String) (s : Store) :
    (register_channel channel s).pending = s.pending := by
  by_cases h : channel ∈ s.activeChannels.getD ["default", "bridge"]
  · simp [register_channel, h]
  · simp [register_channel, h]

theorem register_channel_lastRead (channel : String) (s : Store) :
    (register_channel channel s).lastRead = s.lastRead := by
  by_cases h : channel ∈ s.activeChannels.getD ["default", "bridge"]
  · simp [register_channel, h]
  · simp [register_channel, h]

theorem add_message_conversation_self (m : CharonMessage) (channel : String) (s : Store) :
    get_conversation channel (add_message m channel s) =
      get_conversation channel s ++ [m] := by
  unfold get_conversation add_message
  rw [register_channel_conversations]
  simp [setConversation, get_conversation]

/-! ### C2: append-only order -/

/-- C2: for every finite sequence of addMessage calls on a channel (any
role mix), getConversation returns the prior messages followed by the
appended ones in call order, and on a never-written channel (cache miss)
it returns the empty list. -/
theorem conversation_append_order (msgs : List CharonMessage) (channel : String)
    (s : Store) :
    get_conversation channel (addAll msgs channel s) =
      get_conversation channel s ++ msgs ∧
    get_conversation channel emptyStore = [] := by
  constructor
  · induction msgs generalizing s with
    | nil => simp [addAll]
    | cons m rest ih =>
      have hstep : addAll (m :: rest) channel s =
          addAll rest channel (add_message m channel s) := rfl
      rw [hstep, ih (add_message m channel s), add_message_conversation_self]
      simp
  · rfl

/-! ### C6: rejection is silent -/

/-- C6: reject on a pending id present in the queue removes that entry,
appends nothing to any conversation and returns true; reject on an
absent id returns false and leaves the whole store unchanged. -/
theorem reject_silent (s : Store) (channel pending_id : String) :
    ((s.pending channel).find? (fun e => e.pending_id == pending_id) = none →
      reject_response pending_id channel s = (false, s)) ∧
    (∀ item : PendingResponse,
      (s.pending channel).find? (fun e => e.pending_id == pending_id) = some item →
      (reject_response pending_id channel s).1 = true ∧
      ((reject_response pending_id channel s).2).conversations = s.conversations ∧
      ((reject_response pending_id channel s).2).pending channel =
        (s.pending channel).erase item ∧
      (∀ other : String, other ≠ channel →
        ((reject_response pending_id channel s).2).pending other = s.pending other) ∧
      ((reject_response pending_id channel s).2).lastRead = s.lastRead ∧
      ((reject_response pending_id channel s).2).activeChannels = s.activeChannels) := by
  constructor
  · intro h
    simp only [reject_response, get_pending_responses]
    rw [h]
  · intro item h
    simp only [reject_response, get_pending_responses]
    rw [h]
    refine ⟨rfl, rfl, ?_, ?_, rfl, rfl⟩
    · simp [setPending, get_pending_responses]
    · intro other hother
      simp [setPending, hother]

/-- Witness for C6 on the sample store: rejecting an unknown id is a
no-op returning false, and rejecting the present id returns true. -/
theorem reject_silent_witness :
    reject_response "nope" "bridge" demoPendingStore = (false, demoPendingStore) ∧
    (reject_response "p1" "bridge" demoPendingStore).1 = true := by
  constructor
  · exact (reject_silent demoPendingStore "bridge" "nope").1 (by decide)
  · exact ((reject_silent demoPendingStore "bridge" "p1").2 demoEntry (by decide)).1

/-! ### C8: channel isolation -/

theorem mkCharonMessage_store (role content : String) (pa : Bool) (s : Store) :
    (mkCharonMessage role content none none pa s).2 =
      { s with uuidSeed := s.uuidSeed + 1, clock := s.clock + 1 } := rfl

theorem mkCharonMessage_msg (role content : String) (pa : Bool) (s : Store) :
    (mkCharonMessage role content none none pa s).1 =
      { message_id := "uuid-" ++ toString s.uuidSeed, role := role, content := content,
        timestamp := "t-" ++ toString s.clock, pending_approval := pa } := rfl

theorem add_message_frame (m : CharonMessage) (channel other : String)
    (hne : other ≠ channel) (s : Store) :
    (add_message m channel s).conversations other = s.conversations other ∧
    (add_message m channel s).pending other = s.pending other ∧
    (add_message m channel s).lastRead other = s.lastRead other := by
  simp only [add_message]
  rw [register_channel_conversations, register_channel_pending, register_channel_lastRead]
  simp [setConversation, hne]

theorem add_pending_frame (q r qid : String) (channel other : String)
    (hne : other ≠ channel) (s : Store) :
    ((add_pending_response q r qid channel s).2).conversations other =
      s.conversations other ∧
    ((add_pending_response q r qid channel s).2).pending other = s.pending other ∧
    ((add_pending_response q r qid channel s).2).lastRead other = s.lastRead other := by
  simp [add_pending_response, setPending, freshUuid, freshNow, hne]

theorem approve_frame (pid : String) (mc : Option String) (channel other : String)
    (hne : other ≠ channel) (s : Store) :
    ((approve_response pid mc channel s).2).conversations other =
      s.conversations other ∧
    ((approve_response pid mc channel s).2).pending other = s.pending other ∧
    ((approve_response pid mc channel s).2).lastRead other = s.lastRead other := by
  simp only [approve_response, get_pending_responses]
  cases hf : (s.pending channel).find? (fun item => item.pending_id == pid) with
  | none => simp
  | some item =>
    simp only [setPending, mkCharonMessage_store]
    obtain ⟨h1, h2, h3⟩ := add_message_frame
      (mkCharonMessage "charon" (mc.getD item.response) none none false s).1 channel other hne
      { s with uuidSeed := s.uuidSeed + 1, clock := s.clock + 1 }
    simp only [h1, h2, h3]
    simp [hne]

theorem reject_frame (pid : String) (channel other : String)
    (hne : other ≠ channel) (s : Store) :
    ((reject_response pid channel s).2).conversations other = s.conversations other ∧
    ((reject_response pid channel s).2).pending other = s.pending other ∧
    ((reject_response pid channel s).2).lastRead other = s.lastRead other := by
  simp only [reject_response, get_pending_responses]
  cases hf : (s.pending channel).find? (fun item => item.pending_id == pid) with
  | none => simp
  | some item => simp [setPending, hne]

theorem clear_frame (channel other : String) (hne : other ≠ channel) (s : Store) :
    (clear_conversation channel s).conversations other = s.conversations other ∧
    (clear_conversation channel s).pending other = s.pending other ∧
    (clear_conversation channel s).lastRead other = s.lastRead other := by
  simp [clear_conversation, setConversation, setPending, hne]

theorem mark_read_frame (channel other : String) (uid : Option Int)
    (hne : other ≠ channel) (s : Store) :
    (mark_channel_read channel uid s).conversations other = s.conversations other ∧
    (mark_channel_read channel uid s).pending other = s.pending other ∧
    (mark_channel_read channel uid s).lastRead other = s.lastRead other := by
  simp only [mark_channel_read, get_conversation]
  cases hl : (s.conversations channel).getLast? with
  | none => simp
  | some last => simp [setLastRead, freshNow, hne]

/-- C8: channels are isolated.  Every mutating store operation on one
channel (addMessage, addPending, approve, reject, clear, markRead)
leaves every other channel's conversation, pending queue and read marker
unchanged, so messages and pending items of one channel are never
returned by getConversation or getPending on another. -/
theorem channel_isolation (s : Store) (channel other : String) (hne : other ≠ channel)
    (m : CharonMessage) (q r qid pid : String) (mc : Option String) (uid : Option Int) :
    get_conversation other (add_message m channel s) = get_conversation other s ∧
    get_pending_responses other (add_message m channel s) =
      get_pending_responses other s ∧
    get_last_read other (add_message m channel s) = get_last_read other s ∧
    get_conversation other ((add_pending_response q r qid channel s).2) =
      get_conversation other s ∧
    get_pending_responses other ((add_pending_response q r qid channel s).2) =
      get_pending_responses other s ∧
    get_last_read other ((add_pending_response q r qid channel s).2) =
      get_last_read other s ∧
    get_conversation other ((approve_response pid mc channel s).2) =
      get_conversation other s ∧
    get_pending_responses other ((approve_response pid mc channel s).2) =
      get_pending_responses other s ∧
    get_last_read other ((approve_response pid mc channel s).2) =
      get_last_read other s ∧
    get_conversation other ((reject_response pid channel s).2) =
      get_conversation other s ∧
    get_pending_responses other ((reject_response pid channel s).2) =
      get_pending_responses other s ∧
    get_last_read other ((reject_response pid channel s).2) = get_last_read other s ∧
    get_conversation other (clear_conversation channel s) = get_conversation other s ∧
    get_pending_responses other (clear_conversation channel s) =
      get_pending_responses other s ∧
    get_last_read other (clear_conversation channel s) = get_last_read other s ∧
    get_conversation other (mark_channel_read channel uid s) =
      get_conversation other s ∧
    get_pending_responses other (mark_channel_read channel uid s) =
      get_pending_responses other s ∧
    get_last_read other (mark_channel_read channel uid s) = get_last_read other s := by
  obtain ⟨a1, a2, a3⟩ := add_message_frame m channel other hne s
  obtain ⟨b1, b2, b3⟩ := add_pending_frame q r qid channel other hne s
  obtain ⟨c1, c2, c3⟩ := approve_frame pid mc channel other hne s
  obtain ⟨d1, d2, d3⟩ := reject_frame pid channel other hne s
  obtain ⟨e1, e2, e3⟩ := clear_frame channel other hne s
  obtain ⟨f1, f2, f3⟩ := mark_read_frame channel other uid hne s
  exact ⟨a1, a2, a3, b1, b2, b3, c1, c2, c3, d1, d2, d3, e1, e2, e3, f1, f2, f3⟩

/-- Witness for C8: a message appended to bridge does not show up on the
story channel of the sample store. -/
theorem channel_isolation_witness :
    get_conversation "story"
      (add_message (mkCharonMessage "user" "hi" none none false demoPendingStore).1
        "bridge" demoPendingStore) = get_conversation "story" demoPendingStore :=
  (channel_isolation demoPendingStore "bridge" "story" (by decide)
    (mkCharonMessage "user" "hi" none none false demoPendingStore).1
    "q" "r" "qid" "pid" none none).1

/-! ### C9: addPending does not register its channel -/

theorem add_pending_activeChannels (q r qid channel : String) (s : Store) :
    ((add_pending_response q r qid channel s).2).activeChannels = s.activeChannels := by
  simp [add_pending_response, setPending, freshUuid, freshNow]

theorem add_pending_self (q r qid channel : String) (s : Store) :
    get_pending_responses channel ((add_pending_response q r qid channel s).2) =
      get_pending_responses channel s ++
        [{ pending_id := "uuid-" ++ toString s.uuidSeed, query_id := qid, query := q,
           response := r, timestamp := "t-" ++ toString s.clock }] := by
  simp [add_pending_response, setPending, get_pending_responses, freshUuid, freshNow]

/-- C9: add_pending_response never touches the channel registry: for a
channel not in getAllChannels, any number of addPending calls on it
leaves the registry unchanged and the channel unregistered, even though
getPending on that channel returns the enqueued items in order. -/
theorem add_pending_no_register (s : Store) (channel : String)
    (calls : List (String × String × String))
    (hch : channel ∉ get_all_channels s) :
    get_all_channels (addPendingAll calls channel s) = get_all_channels s ∧
    channel ∉ get_all_channels (addPendingAll calls channel s) ∧
    (get_pending_responses channel (addPendingAll calls channel s)).map
        (fun e => (e.query, e.response, e.query_id)) =
      (get_pending_responses channel s).map (fun e => (e.query, e.response, e.query_id))
        ++ calls := by
  have hreg : ∀ (cs : List (String × String × String)) (st : Store),
      get_all_channels (addPendingAll cs channel st) = get_all_channels st := by
    intro cs
    induction cs with
    | nil => intro st; rfl
    | cons c rest ih =>
      intro st
      have hstep : addPendingAll (c :: rest) channel st =
          addPendingAll rest channel ((add_pending_response c.1 c.2.1 c.2.2 channel st).2) :=
        rfl
      rw [hstep, ih]
      simp [get_all_channels, add_pending_activeChannels]
  have hpend : ∀ (cs : List (String × String × String)) (st : Store),
      (get_pending_responses channel (addPendingAll cs channel st)).map
          (fun e => (e.query, e.response, e.query_id)) =
        (get_pending_responses channel st).map
          (fun e => (e.query, e.response, e.query_id)) ++ cs := by
    intro cs
    induction cs with
    | nil => intro st; simp [addPendingAll]
    | cons c rest ih =>
      intro st
      have hstep : addPendingAll (c :: rest) channel st =
          addPendingAll rest channel ((add_pending_response c.1 c.2.1 c.2.2 channel st).2) :=
        rfl
      rw [hstep, ih, add_pending_self]
      simp

  exact ⟨hreg calls s, by rw [hreg calls s]; exact hch, hpend calls s⟩

/-- Witness for C9: enqueueing one pending item on the story channel of
a fresh store leaves the registry at its two seeded defaults. -/
theorem add_pending_no_register_witness :
    get_all_channels (addPendingAll [("q", "r", "qid")] "story" emptyStore) =
      get_all_channels emptyStore :=
  (add_pending_no_register emptyStore "story" [("q", "r", "qid")] (by decide)).1

/-! ### C10: clear leaves the read marker in place -/

theorem clear_lastRead (channel : String) (s : Store) :
    (clear_conversation channel s).lastRead = s.lastRead := rfl

theorem clear_conversation_self (channel : String) (s : Store) :
    get_conversation channel (clear_conversation channel s) = [] := by
  simp [clear_conversation, setConversation, setPending, get_conversation]

theorem clear_pending_self (channel : String) (s : Store) :
    get_pending_responses channel (clear_conversation channel s) = [] := by
  simp [clear_conversation, setConversation, setPending, get_pending_responses]

/-- C10: clear_conversation deletes only the conversation and pending
keys: after markRead followed by clear, the read marker is untouched
(getLastRead still returns the marker pointing at the pre-clear last
message), the conversation and queue read back empty, and
getUnreadCount with the marker id returns 0 on the now empty
conversation. -/
theorem clear_preserves_marker (s : Store) (channel : String) (uid : Option Int) :
    get_last_read channel (markThenClear channel uid s) =
      get_last_read channel (mark_channel_read channel uid s) ∧
    get_conversation channel (markThenClear channel uid s) = [] ∧
    get_pending_responses channel (markThenClear channel uid s) = [] ∧
    (∀ id : String, get_unread_count channel (some id) (markThenClear channel uid s) = 0) ∧
    (markThenClear channel uid s).lastRead = (mark_channel_read channel uid s).lastRead ∧
    (∀ last : CharonMessage, (get_conversation channel s).getLast? = some last →
      ∃ marker : ReadMarker,
        get_last_read channel (markThenClear channel uid s) = some marker ∧
          marker.message_id = last.message_id) := by
  refine ⟨rfl, clear_conversation_self channel _, clear_pending_self channel _, ?_, rfl, ?_⟩
  · intro id
    simp [get_unread_count, clear_conversation_self channel (mark_channel_read channel uid s),
      markThenClear]
  · intro last hl
    refine ⟨{ message_id := last.message_id, timestamp := (freshNow s).1, user_id := uid }, ?_, rfl⟩
    show (clear_conversation channel (mark_channel_read channel uid s)).lastRead channel = _
    rw [clear_lastRead]
    simp only [mark_channel_read, get_conversation]
    simp only [get_conversation] at hl
    rw [hl]
    simp [setLastRead]

/-- Witness for C10 on the sample conversation store: after markRead and
clear on the story channel the marker still points at message idc. -/
theorem clear_preserves_marker_witness :
    ∃ marker : ReadMarker,
      get_last_read "story" (markThenClear "story" none demoConvStore) = some marker ∧
        marker.message_id = "idc" := by
  obtain ⟨marker, hm, hid⟩ :=
    (clear_preserves_marker demoConvStore "story" none).2.2.2.2.2
      { message_id := "idc", role := "user", content := "c", timestamp := "t-3",
        pending_approval := false } (by decide)
  exact ⟨marker, hm, by rw [hid]⟩

/-! ### C1: approval transforms exactly one pending into one message -/

/-- C1: for a pending entry with stored response R that is the unique
queue entry with its id, approve with no override appends exactly one
charon message with content R and removes the entry, returning true;
approve with an override M appends content M instead; a second approve
with the same id returns not-found and leaves the store (hence the
conversation) unchanged. -/
theorem approve_transforms_pending (s : Store) (channel pid : String)
    (entry : PendingResponse)
    (hq : (s.pending channel).filter (fun e => e.pending_id == pid) = [entry]) :
    (approve_response pid none channel s).1 = true ∧
    (∃ m : CharonMessage,
      get_conversation channel ((approve_response pid none channel s).2) =
        get_conversation channel s ++ [m] ∧ m.role = "charon" ∧
        m.content = entry.response) ∧
    get_pending_responses channel ((approve_response pid none channel s).2) =
      (s.pending channel).erase entry ∧
    (∀ M : String, (approve_response pid (some M) channel s).1 = true ∧
      ∃ m : CharonMessage,
        get_conversation channel ((approve_response pid (some M) channel s).2) =
          get_conversation channel s ++ [m] ∧ m.role = "charon" ∧ m.content = M) ∧
    approve_response pid none channel ((approve_response pid none channel s).2) =
      (false, (approve_response pid none channel s).2) := by
  have hfind : (s.pending channel).find? (fun e => e.pending_id == pid) = some entry :=
    find?_of_filter_singleton _ _ _ hq
  have happ : ∀ mc : Option String, approve_response pid mc channel s =
      (true, setPending channel ((s.pending channel).erase entry)
        (add_message
          (mkCharonMessage "charon" (mc.getD entry.response) none none false s).1
          channel
          (mkCharonMessage "charon" (mc.getD entry.response) none none false s).2)) := by
    intro mc
    simp only [approve_response, get_pending_responses]
    rw [hfind]
  have hconv : ∀ mc : Option String,
      get_conversation channel ((approve_response pid mc channel s).2) =
        get_conversation channel s ++
          [(mkCharonMessage "charon" (mc.getD entry.response) none none false s).1] := by
    intro mc
    rw [happ mc]
    show get_conversation channel (setPending channel _ _) = _
    have hset : ∀ (p : List PendingResponse) (st : Store),
        get_conversation channel (setPending channel p st) =
          get_conversation channel st := by
      intro p st
      simp [setPending, get_conversation]
    rw [hset, add_message_conversation_self]
    rfl
  refine ⟨?_, ?_, ?_, ?_, ?_⟩
  · rw [happ none]
  · refine ⟨(mkCharonMessage "charon" entry.response none none false s).1, ?_, rfl, rfl⟩
    have := hconv none
    simpa using this
  · rw [happ none]
    simp [setPending, get_pending_responses]
  · intro M
    constructor
    · rw [happ (some M)]
    · refine ⟨(mkCharonMessage "charon" M none none false s).1, ?_, rfl, rfl⟩
      have := hconv (some M)
      simpa using this
  · have hpend2 : ((approve_response pid none channel s).2).pending channel =
        (s.pending channel).erase entry := by
      rw [happ none]
      simp [setPending]
    have hnone : (((approve_response pid none channel s).2).pending channel).find?
        (fun item => item.pending_id == pid) = none := by
      rw [hpend2]
      exact find?_erase_of_filter_singleton _ _ _ hq
    have hnoneCase : ∀ st : Store,
        (st.pending channel).find? (fun item => item.pending_id == pid) = none →
        approve_response pid none channel st = (false, st) := by
      intro st h
      simp only [approve_response, get_pending_responses]
      rw [h]
    exact hnoneCase _ hnone

/-- Witness for C1 on the sample store: approving the only pending entry
appends its stored response as a charon message, empties the queue and
returns true; a second approval of the same id returns false. -/
theorem approve_transforms_pending_witness :
    (approve_response "p1" none "bridge" demoPendingStore).1 = true ∧
    (approve_response "p1" none "bridge"
      ((approve_response "p1" none "bridge" demoPendingStore).2)).1 = false := by
  have h := approve_transforms_pending demoPendingStore "bridge" "p1" demoEntry (by decide)
  exact ⟨h.1, by rw [h.2.2.2.2]⟩

/-! ### C5: unread count -/

theorem findIdx_msgsAfter (id : String) (conv : List CharonMessage) :
    ∀ j : Nat,
      markerCount (j + conv.length)
        (conv.findIdx? (fun msg => msg.message_id == id) j) =
      msgsAfterId id conv := by
  induction conv with
  | nil => intro j; rfl
  | cons m rest ih =>
    intro j
    rw [List.findIdx?_cons]
    by_cases hm : m.message_id = id
    · rw [if_pos (by simpa using hm)]
      simp only [markerCount, msgsAfterId, if_pos hm, List.length_cons]
      omega
    · rw [if_neg (by simpa using hm)]
      have harith : j + (m :: rest).length = (j + 1) + rest.length := by
        simp [List.length_cons]; omega
      rw [harith, ih (j + 1)]
      simp [msgsAfterId, hm]

theorem foldl_if_count (g : Nat → Bool) (l : List Nat) :
    ∀ acc : Nat,
      l.foldl (fun u i => if g i then u + 1 else u) acc = acc + l.countP g := by
  induction l with
  | nil => intro acc; simp
  | cons x xs ih =>
    intro acc
    rw [List.foldl_cons, List.countP_cons]
    cases hx : g x with
    | true =>
      rw [if_pos rfl, if_pos rfl, ih]
      omega
    | false =>
      rw [if_neg (by simp), if_neg (by simp), ih]
      omega

theorem countP_range_unanswered (conv : List CharonMessage) :
    (List.range conv.length).countP
      (fun i =>
        (conv.getD i defaultMsg).role == "user" &&
        (decide (conv.length ≤ i + 1) ||
         (conv.getD (i + 1) defaultMsg).role != "charon")) =
    unansweredCount conv := by
  induction conv with
  | nil => rfl
  | cons m rest ih =>
    rw [List.length_cons, List.range_succ_eq_map, List.countP_cons, List.countP_map]
    have hfun :
        ((fun i =>
            ((m :: rest).getD i defaultMsg).role == "user" &&
            (decide (rest.length + 1 ≤ i + 1) ||
             ((m :: rest).getD (i + 1) defaultMsg).role != "charon")) ∘ Nat.succ) =
        (fun i =>
            (rest.getD i defaultMsg).role == "user" &&
            (decide (rest.length ≤ i + 1) ||
             (rest.getD (i + 1) defaultMsg).role != "charon")) := by
      funext j
      have hdec : (decide (rest.length + 1 ≤ j + 1 + 1) : Bool) =
          decide (rest.length ≤ j + 1) := by
        apply decide_eq_decide.mpr
        omega
      simp only [Function.comp, List.getD_cons_succ, hdec]
    rw [hfun, ih]
    cases rest with
    | nil =>
      simp only [unansweredCount, List.length_nil, List.range_zero, List.countP_nil]
      by_cases hu : m.role = "user"
      · simp [hu]
      · simp [hu]
    | cons next rest2 =>
      have hlen : (decide ((next :: rest2).length + 1 ≤ 0 + 1) : Bool) = false := by
        simp
      simp only [List.getD_cons_zero, List.getD_cons_succ, hlen, Bool.false_or]
      show unansweredCount (next :: rest2) +
          (if (m.role == "user" && next.role != "charon") = true then 1 else 0) =
        unansweredCount (m :: next :: rest2)
      have hhead : (if (m.role == "user" && next.role != "charon") = true then 1 else 0) =
          (if m.role = "user" ∧ next.role ≠ "charon" then 1 else 0) := by
        by_cases h1 : m.role = "user" ∧ next.role ≠ "charon"
        · rw [if_pos h1]
          have : (m.role == "user" && next.role != "charon") = true := by
            simp [h1.1, bne_iff_ne, h1.2]
          rw [if_pos this]
        · rw [if_neg h1]
          have : ¬((m.role == "user" && next.role != "charon") = true) := by
            intro hcontra
            apply h1
            constructor
            · have := (Bool.and_eq_true _ _).mp hcontra
              simpa using this.1
            · have := (Bool.and_eq_true _ _).mp hcontra
              simpa [bne_iff_ne] using this.2
          rw [if_neg this]
      rw [hhead]
      show unansweredCount (next :: rest2) + _ =
        (if m.role = "user" ∧ next.role ≠ "charon" then 1 else 0) +
          unansweredCount (next :: rest2)
      omega

theorem unreadLoop_eq_unanswered (conv : List CharonMessage) :
    unreadLoop conv = unansweredCount conv := by
  have h0 : unreadLoop conv =
      0 + (List.range conv.length).countP
        (fun i =>
          (conv.getD i defaultMsg).role == "user" &&
          (decide (conv.length ≤ i + 1) ||
           (conv.getD (i + 1) defaultMsg).role != "charon")) :=
    foldl_if_count _ (List.range conv.length) 0
  rw [h0, Nat.zero_add, countP_range_unanswered]

/-- C5: with a nonempty marker id, getUnreadCount returns the number of
messages strictly after the first occurrence of that id and 0 when the
id does not occur; with no marker it returns the number of user-role
messages not immediately followed by a charon-role message; on the
conversation user a, charon b, user c it returns 1 with no marker and 2
with a marker at message a. -/
theorem unread_count_spec (s : Store) (channel : String) :
    (∀ id : String, id ≠ "" →
      get_unread_count channel (some id) s =
        msgsAfterId id (get_conversation channel s)) ∧
    get_unread_count channel none s =
      unansweredCount (get_conversation channel s) ∧
    get_unread_count "story" none demoConvStore = 1 ∧
    get_unread_count "story" (some "ida") demoConvStore = 2 := by
  refine ⟨?_, ?_, by decide, by decide⟩
  · intro id hid
    by_cases hc : (s.conversations channel).isEmpty
    · have hnil : s.conversations channel = [] := by
        cases h : s.conversations channel with
        | nil => rfl
        | cons a l => rw [h] at hc; simp [List.isEmpty] at hc
      simp [get_unread_count, get_conversation, hnil, msgsAfterId]
    · simp only [get_unread_count, get_conversation]
      rw [if_neg (by simpa using hc), if_neg (by simpa using hid)]
      have := findIdx_msgsAfter id (s.conversations channel) 0
      rw [Nat.zero_add] at this
      exact this
  · by_cases hc : (s.conversations channel).isEmpty
    · have hnil : s.conversations channel = [] := by
        cases h : s.conversations channel with
        | nil => rfl
        | cons a l => rw [h] at hc; simp [List.isEmpty] at hc
      simp [get_unread_count, get_conversation, hnil, unansweredCount]
    · simp only [get_unread_count, get_conversation]
      rw [if_neg hc, if_pos (show ((none : Option String).getD "") = "" from rfl)]
      exact unreadLoop_eq_unanswered (s.conversations channel)

/-- Witness for C5: the marker branch evaluated at the sample
conversation and the marker at message a. -/
theorem unread_count_spec_witness :
    get_unread_count "story" (some "ida") demoConvStore =
      msgsAfterId "ida" (get_conversation "story" demoConvStore) :=
  (unread_count_spec demoConvStore "story").1 "ida" (by decide)

/-! ### C7: location chain -/

/-- C7: _load_location_chain returns one entry per path prefix whose
record exists, in root-to-leaf order, each tagged with the prefix it was
loaded from, silently skipping absent prefixes; on sol/earth/base-alpha
with all three records present it returns exactly the three records in
root-to-leaf order tagged with their own prefixes. -/
theorem location_chain_spec {α : Type} (provider : String → Option α)
    (parts : List String) :
    ((_load_location_chain provider parts).map Prod.snd =
      (chainPaths parts).filter (fun p => (provider p).isSome)) ∧
    (∀ (d : α) (p : String), (d, p) ∈ _load_location_chain provider parts →
      provider p = some d) ∧
    _load_location_chain demoProvider ["sol", "earth", "base-alpha"] =
      [(0, "sol"), (1, "sol/earth"), (2, "sol/earth/base-alpha")] := by
  refine ⟨?_, ?_, by decide⟩
  · have hgen : ∀ l : List Nat,
        ((l.filterMap (fun i =>
          (provider (String.intercalate "/" (parts.take (i + 1)))).map
            (fun d => (d, String.intercalate "/" (parts.take (i + 1)))))).map
          Prod.snd) =
        ((l.map (fun i => String.intercalate "/" (parts.take (i + 1)))).filter
          (fun p => (provider p).isSome)) := by
      intro l
      induction l with
      | nil => rfl
      | cons i l ih =>
        simp only [List.filterMap_cons, List.map_cons, List.filter_cons]
        cases hp : provider (String.intercalate "/" (parts.take (i + 1))) with
        | none => simp [hp, ih]
        | some d => simp [hp, ih]
    exact hgen (List.range parts.length)
  · intro d p hd
    simp only [_load_location_chain] at hd
    obtain ⟨i, -, hmap⟩ := List.mem_filterMap.mp hd
    cases hp : provider (String.intercalate "/" (parts.take (i + 1))) with
    | none => rw [hp] at hmap; simp at hmap
    | some d2 =>
      rw [hp] at hmap
      simp at hmap
      obtain ⟨rfl, rfl⟩ := hmap
      exact hp

/-- Witness for C7: the membership contract applied to the first entry
of the concrete chain. -/
theorem location_chain_spec_witness : demoProvider "sol" = some 0 :=
  (location_chain_spec demoProvider ["sol", "earth", "base-alpha"]).2.1 0 "sol"
    (by decide)

/-! ### C4: deny patterns always win in lore filtering -/

/-- C4: in _extract_sections a heading matching a deny pattern always
wins: the heading line is dropped and any in-progress allowed section is
exited, regardless of whether the heading also matches the allow-list;
subsequent body lines stay dropped until an allowed heading; in
particular the document with headings Overview, GM Notes, History and
allow-list Overview filters to exactly the Overview heading and body. -/
theorem deny_pattern_wins :
    (∀ (allowed exclude : List String) (st : ExtractState) (line : String)
        (level : Nat) (name : String),
      headerMatch line = some (level, name) →
      sectionExcluded exclude name = true →
      extractLine allowed exclude st line = ({ st with in_allowed_section := false }, [])) ∧
    (∀ (allowed exclude : List String) (st : ExtractState) (line : String),
      st.in_allowed_section = false → headerMatch line = none →
      extractLine allowed exclude st line = (st, [])) ∧
    _extract_sections demoLoreDoc ["Overview"] defaultExcludePatterns =
      "# Overview\nStation overview body." := by
  refine ⟨?_, ?_, by decide⟩
  · intro allowed exclude st line level name hh hex
    simp only [extractLine]
    rw [hh]
    simp [hex]
  · intro allowed exclude st line hst hh
    simp only [extractLine]
    rw [hh]
    simp [hst]

/-- Witness for C4: the GM Notes heading, which also matches the
allow-list GM Notes, is still dropped and exits the allowed section. -/
theorem deny_pattern_wins_witness :
    extractLine ["GM Notes"] defaultExcludePatterns
      { current_level := 1, in_allowed_section := true } "## GM Notes" =
    ({ current_level := 1, in_allowed_section := false }, []) :=
  deny_pattern_wins.1 ["GM Notes"] defaultExcludePatterns
    { current_level := 1, in_allowed_section := true } "## GM Notes" 2 "GM Notes"
    (by decide) (by decide)

/-! ### C3: fallback under unavailability or exception -/

/-- C3: whenever the client is absent (no credential, missing library,
failed construction) or the model call raises, generate_response
returns a member of the effective fallback list; provided the
configured list is nonempty and has no empty member (as the default
does), the result is never empty and no exception escapes. -/
theorem generate_response_fallback (cfg : CharonConfig)
    (client : Option (List ApiMsg → Except String String)) (pick : Nat)
    (query : String) (history : List ApiMsg)
    (hfail : client = none ∨ ∃ call e, client = some call ∧
      call (buildMessages history query) = Except.error e)
    (hfb : effFallbacks cfg ≠ [])
    (hnb : "" ∉ effFallbacks cfg) :
    ∃ r : String, generate_response cfg client pick query history = some r ∧
      r ∈ effFallbacks cfg ∧ r ≠ "" := by
  have hlen : 0 < (effFallbacks cfg).length := List.length_pos.mpr hfb
  have hidx : pick % (effFallbacks cfg).length < (effFallbacks cfg).length :=
    Nat.mod_lt _ hlen
  have hget : _get_fallback_response cfg pick =
      some ((effFallbacks cfg).get ⟨pick % (effFallbacks cfg).length, hidx⟩) := by
    simp only [_get_fallback_response]
    exact List.get?_eq_get hidx
  have hmem : (effFallbacks cfg).get ⟨pick % (effFallbacks cfg).length, hidx⟩ ∈
      effFallbacks cfg := List.get_mem _ _ _
  refine ⟨(effFallbacks cfg).get ⟨pick % (effFallbacks cfg).length, hidx⟩, ?_, hmem,
    fun h => hnb (h ▸ hmem)⟩
  rcases hfail with hnone | ⟨call, e, hcall, herr⟩
  · rw [hnone]
    exact hget
  · rw [hcall]
    simp only [generate_response]
    rw [herr]
    exact hget

/-- Witness for C3: with the default config and no client, the call
returns the single default fallback line. -/
theorem generate_response_fallback_witness :
    ∃ r : String, generate_response demoConfig none 0 "status?" [] = some r ∧
      r ∈ effFallbacks demoConfig ∧ r ≠ "" :=
  generate_response_fallback demoConfig none 0 "status?" [] (Or.inl rfl)
    (by decide) (by decide)

end Mothership
